import Mathlib

/-!
Shallow embedding of `src/power_analyzer.py` (KiCad Power Net Analyzer
plugin, class `PowerNetAnalyzerGui`) and proofs about its grid
discretization, node classification, netlist synthesis, GUI event
handlers, and result post-processing.

Host geometry objects (pads, tracks) are modelled by their hit-test
predicates, which is the only interface `run_analysis` uses on them.
Lengths are in nanometers as in the source; voltages are rationals.
-/

namespace PowerNetAnalyzer

/-- A board net as returned by `board.GetNetsByName()`; only its identity
matters to the embedded code, so it is a bare code number. -/
structure BNet where
  code : Nat
deriving DecidableEq, Inhabited

/-- A pad of the board.  `netName` is `pad.GetNet().GetNetname()`,
`parentRef` is `pad.GetParent().GetReference()`, `padNum` is
`pad.GetPadName()`, and `hit x y` is `pad.HitTest(pcbnew.wxPoint(x, y))`. -/
structure BoardPad where
  netName : String
  parentRef : String
  padNum : String
  hit : Int → Int → Bool
deriving Inhabited

/-- A track; `hit x y` is `track.HitTest(pcbnew.wxPoint(x, y))`. -/
structure Track where
  hit : Int → Int → Bool

/-- One row of the `pad_config` DataViewListCtrl: column 0 is the pad
name, column 1 the current-draw text, column 2 the source toggle. -/
structure PadRow where
  name : String
  current : String
  source : Bool
deriving DecidableEq, Inhabited

/-- The host board as seen by the plugin: `GetNetsByName()` (iterated as
(netname, net) pairs) and `GetPads()`. -/
structure Board where
  netsByName : List (String × BNet)
  pads : List BoardPad

/-- Constant `self.analysis_grid_spacing = 100000` (nanometers). -/
def analysis_grid_spacing : Int := 100000

/-- Constant `self.analysis_sheet_resistance = 0.0005`, as Python formats it into
the netlist. -/
def analysis_sheet_resistance_str : String := "0.0005"

/-- Constant `self.analysis_source_voltage = 3.3`, as a rational. -/
def analysis_source_voltage : ℚ := 33 / 10

/-- Constant `self.analysis_source_voltage = 3.3`, as Python formats it into the
netlist. -/
def analysis_source_voltage_str : String := "3.3"

/-- Number of iterations of Python's `range(start, stop, step)` for
positive `step`: `max 0 ⌈(stop-start)/step⌉`. -/
def pyRangeLen (start stop step : Int) : Nat :=
  if start < stop then ((stop - start).toNat + (step.toNat - 1)) / step.toNat else 0

/-- The values produced by Python's `range(start, stop, step)` for
positive `step`: `start, start+step, ...` while below `stop`. -/
def pyRange (start stop step : Int) : List Int :=
  (List.range (pyRangeLen start stop step)).map (fun (k : Nat) => start + (k : Int) * step)

/-- Classification of one grid point (`run_analysis`, inner loop body,
lines 175-204).  `pads` pairs each entry of `self.analysis_pads` with the
`pad_config` row of the same index (the loop reads
`self.pad_config.GetTextValue(index, …)`); the `for`/`break` over pads is
`List.find?`.  Returns the string appended to `line`: the first hitting
pad's row name when that row has current draw ≠ "0" or its source toggle
set, the default grid name when the point is on the net otherwise, and
`""` when no pad and no track contains the point. -/
def nodeName (pads : List (BoardPad × PadRow)) (tracks : List Track)
    (x y : Int) (dflt : String) : String :=
  match pads.find? (fun pr => pr.1.hit x y) with
  | some pr => if pr.2.current ≠ "0" || pr.2.source then pr.2.name else dflt
  | none => if tracks.any (fun t => t.hit x y) then dflt else ""

/-- Whether the classification marks the point as on the net
(`node_on_net` after both loops). -/
def nodeOnNet (pads : List (BoardPad × PadRow)) (tracks : List Track)
    (x y : Int) : Bool :=
  pads.any (fun pr => pr.1.hit x y) || tracks.any (fun t => t.hit x y)

/-- The inputs `run_analysis` reads: the board-edges bounding box
(`GetX`, `GetY`, `GetWidth`, `GetHeight`), the analysis pads zipped with
their `pad_config` rows, and the tracks of the analysis net. -/
structure AnalysisInput where
  rootX : Int
  rootY : Int
  width : Int
  height : Int
  pads : List (BoardPad × PadRow)
  tracks : List Track

/-- Grid construction `analysis_nodes` (lines 168-209): the outer loop over
`range(root_x, root_x + width, spacing)` with counter `i` builds one
`line` per x value; the inner loop over
`range(root_y, root_y + height, spacing)` with counter `j` appends one
classified name per y value. -/
def analysis_nodes (inp : AnalysisInput) : List (List String) :=
  (pyRange inp.rootX (inp.rootX + inp.width) analysis_grid_spacing).enum.map
    (fun ix =>
      (pyRange inp.rootY (inp.rootY + inp.height) analysis_grid_spacing).enum.map
        (fun jy =>
          nodeName inp.pads inp.tracks ix.2 jy.2
            ("n" ++ toString ix.1 ++ "x" ++ toString jy.1)))

/-- Python indexing `analysis_nodes[i][j]`, returning `""` out of range. -/
def nodeAt (nodes : List (List String)) (i j : Nat) : String :=
  (nodes.getD i []).getD j ("")

/-- The four neighbor index pairs probed from center `(i, j)` in order:
right `analysis_nodes[i+1][j]`, bottom `analysis_nodes[i][j+1]`, left
`analysis_nodes[i-1][j]`, top `analysis_nodes[i][j-1]` (lines 221-233). -/
def neighborIdx (i j : Nat) : List (Nat × Nat) :=
  [(i + 1, j), (i, j + 1), (i - 1, j), (i, j - 1)]

/-- The ordered (center-name, neighbor-name) pairs the resistor loop
emits (lines 217-235): `i` over Python `range(1, len(analysis_nodes)-1)`,
`j` over `range(1, len(analysis_nodes[0])-1)`, a pair per direction with
both ends nonempty. -/
def collectPairs (nodes : List (List String)) : List (String × String) :=
  (List.range' 1 (nodes.length - 2)).flatMap (fun i =>
    (List.range' 1 ((nodes.headD []).length - 2)).flatMap (fun j =>
      if nodeAt nodes i j ≠ "" then
        ((neighborIdx i j).filter (fun q => nodeAt nodes q.1 q.2 ≠ "")).map
          (fun q => (nodeAt nodes i j, nodeAt nodes q.1 q.2))
      else []))

/-- One resistor card: `"R{n} {a} {b} {resistance}"`. -/
def mkRLine (n : Nat) (a b : String) : String :=
  "R" ++ toString n ++ " " ++ a ++ " " ++ b ++ " " ++ analysis_sheet_resistance_str

/-- Numbering of the emitted resistor pairs with the running counter `n`
(initialized to 1 and incremented by 1 per appended resistor line). -/
def emitResistors : List (String × String) → Nat → List String
  | [], _ => []
  | p :: ps, n => mkRLine n p.1 p.2 :: emitResistors ps (n + 1)

/-- The resistor section of `analysis_netlist`. -/
def resistorLines (nodes : List (List String)) : List String :=
  emitResistors (collectPairs nodes) 1

/-- One current-source card: `"I{i} {name} 0 {current}"` (line 243). -/
def mkILine (i : Nat) (r : PadRow) : String :=
  "I" ++ toString i ++ " " ++ r.name ++ " 0 " ++ r.current

/-- The current-source loop (lines 241-243): `for i, pad in
enumerate(self.analysis_padnames)`, emitting a card when the row's
current-draw cell is not "0". -/
def currentLines : List PadRow → Nat → List String
  | [], _ => []
  | r :: rs, i =>
      (if r.current ≠ "0" then [mkILine i r] else []) ++ currentLines rs (i + 1)

/-- The voltage-source card (line 238): `V1 <source-pad-name> 0 3.3`,
the name read from column 0 of the source row. -/
def mkVLine (cfg : List PadRow) (sourceRow : Nat) : String :=
  "V1 " ++ (cfg.getD sourceRow default).name ++ " 0 " ++ analysis_source_voltage_str

/-- Netlist assembly `analysis_netlist` (lines 215-246): title, resistor stencil, voltage
source at the source row, current sources, `.op`, `.end`. -/
def analysis_netlist (nodes : List (List String)) (cfg : List PadRow)
    (sourceRow : Nat) : List String :=
  "analysis" :: resistorLines nodes
    ++ [mkVLine cfg sourceRow]
    ++ currentLines cfg 0
    ++ [".op", ".end"]

/-- Post-processing `node_voltages` (lines 252-260): `i` over `range(len(analysis_nodes))`,
`j` over `range(len(analysis_nodes[0]))`; an on-net node looks up
`data["op1"][name.lower()][0]` (modelled by `op1 : String → ℚ`), a blank
node gets `self.analysis_source_voltage`. -/
def node_voltages (op1 : String → ℚ) (nodes : List (List String)) :
    List (List ℚ) :=
  (List.range nodes.length).map (fun i =>
    (List.range (nodes.headD []).length).map (fun j =>
      if nodeAt nodes i j ≠ "" then op1 (nodeAt nodes i j).toLower
      else analysis_source_voltage))

/-- The GUI state the event handlers touch: `self.netnames`, `self.nets`,
the rows of `self.pad_config`, `self.analysis_pads`,
`self.analysis_padnames`, `self.analysis_netname` / `self.analysis_net`
(absent before the first net selection), `self.source_row`, and the
enabled flag of `self.start_button`. -/
structure GuiState where
  netnames : List String
  nets : List BNet
  padRows : List PadRow
  analysisPads : List BoardPad
  analysisPadnames : List String
  analysisNetname : Option String
  analysisNet : Option BNet
  sourceRow : Int
  startEnabled : Bool

/-- Constructor loop of `__init__` over `board.GetNetsByName().items()` (lines
50-57): skip empty net names, append the name to `netnames` and the net
to `nets`. -/
def buildNetLists : List (String × BNet) → List String × List BNet
  | [] => ([], [])
  | p :: rest =>
      let r := buildNetLists rest
      if p.1 = "" then r else (p.1 :: r.1, p.2 :: r.2)

/-- State that `__init__` leaves behind: filtered net lists, empty pad
config, `source_row = -1`, start button disabled. -/
def initState (b : Board) : GuiState :=
  { netnames := (buildNetLists b.netsByName).1,
    nets := (buildNetLists b.netsByName).2,
    padRows := [], analysisPads := [], analysisPadnames := [],
    analysisNetname := none, analysisNet := none,
    sourceRow := -1, startEnabled := false }

/-- Pad display name (line 120): `"{parent_ref}-Pad{pad_num}"`. -/
def mkPadName (p : BoardPad) : String :=
  p.parentRef ++ "-Pad" ++ p.padNum

/-- The `OnSelectNet` pad loop (lines 110-123): for each board pad whose
net name equals the chosen net name, append the pad, its display name,
and a fresh `pad_config` row `[name, "0", False]`. -/
def selectPadsLoop (netname : String) :
    List BoardPad → List BoardPad × List String × List PadRow
  | [] => ([], [], [])
  | p :: ps =>
      let rest := selectPadsLoop netname ps
      if p.netName = netname then
        (p :: rest.1, mkPadName p :: rest.2.1,
          ⟨mkPadName p, "0", false⟩ :: rest.2.2)
      else rest

/-- Handler `OnSelectNet` (lines 93-123): record the chosen (name, net) pair,
clear the pad config, reset `source_row`, disable the start button, then
— only when the board has at least one pad — rebuild `analysis_pads`,
`analysis_padnames` and the pad-config rows from the pad loop. -/
def onSelectNet (s : GuiState) (b : Board) (sel : Nat) : GuiState :=
  let name := s.netnames.getD sel ("")
  let net := s.nets.getD sel default
  let cleared := { s with
    analysisNetname := some name
    analysisNet := some net
    padRows := []
    sourceRow := -1
    startEnabled := false }
  if 0 < b.pads.length then
    let r := selectPadsLoop name b.pads
    { cleared with
      analysisPads := r.1
      analysisPadnames := r.2.1
      padRows := r.2.2 }
  else cleared

/-- Overwrite the source toggle of a row (`SetToggleValue`). -/
def setSource (row : PadRow) (b : Bool) : PadRow :=
  { row with source := b }

/-- The cell mutation the user's edit performs before the value-changed
event fires: column 1 replaces the current-draw text, column 2 flips the
toggle; other columns are not editable. -/
def userEdit (s : GuiState) (r c : Nat) (v : String) : GuiState :=
  if c = 1 then
    { s with padRows := s.padRows.set r { s.padRows.getD r default with current := v } }
  else if c = 2 then
    { s with padRows := s.padRows.set r (setSource (s.padRows.getD r default) (!(s.padRows.getD r default).source)) }
  else s

/-- Handler `OnSelectSource` (lines 126-139), run after the cell already changed:
only column 2 is handled; toggling the current source row clears the
selection and disables the button, toggling another row while one is
selected untoggles the old row, and toggling with no selection adopts the
row; the last two enable the button. -/
def onSelectSource (s : GuiState) (r c : Nat) : GuiState :=
  if c = 2 then
    if s.sourceRow = (r : Int) then
      { s with sourceRow := -1, startEnabled := false }
    else if s.sourceRow ≠ -1 then
      { s with
        padRows := s.padRows.set s.sourceRow.toNat (setSource (s.padRows.getD s.sourceRow.toNat default) false)
        sourceRow := (r : Int)
        startEnabled := true }
    else
      { s with sourceRow := (r : Int), startEnabled := true }
  else s

/-- One `EVT_DATAVIEW_ITEM_VALUE_CHANGED` delivery: the user's cell edit
followed by the bound handler. -/
def valueChangedStep (s : GuiState) (r c : Nat) (v : String) : GuiState :=
  onSelectSource (userEdit s r c v) r c

/-- Handler `OnStartAnalysis` (lines 141-143): whether the button press invokes
`run_analysis`. -/
def onStartAnalysisRuns (s : GuiState) : Bool :=
  decide (s.sourceRow ≠ -1)

/-- States reachable through the bound event handlers from the state
`__init__` builds.  A combobox selection carries a valid index into the
choice list, and a value-changed event carries a row of the control
(`ItemToRow` of an existing item), hence the bounds on the events. -/
inductive Reachable (b : Board) : GuiState → Prop
  | init : Reachable b (initState b)
  | selectNet {s : GuiState} (sel : Nat) : Reachable b s →
      sel < s.netnames.length → Reachable b (onSelectNet s b sel)
  | valueChanged {s : GuiState} (r c : Nat) (v : String) : Reachable b s →
      r < s.padRows.length → Reachable b (valueChangedStep s r c v)

/-- The source-selection invariant: the start button is enabled exactly
when a source row is selected, and either no row is selected and every
toggle is off, or the selected row is a valid index and the unique row
whose toggle is on. -/
def srcInv (s : GuiState) : Prop :=
  (s.startEnabled = true ↔ s.sourceRow ≠ -1) ∧
  ((s.sourceRow = -1 ∧
      ∀ m, m < s.padRows.length → (s.padRows.getD m default).source = false) ∨
    (∃ k : Nat, s.sourceRow = (k : Int) ∧ k < s.padRows.length ∧
      ∀ m, m < s.padRows.length →
        ((s.padRows.getD m default).source = true ↔ m = k)))

lemma pyRangeLen_lt_iff {start stop step : Int} (hstep : 0 < step) (k : Nat) :
    k < pyRangeLen start stop step ↔ start + (k : Int) * step < stop := by
  have hcast : ((k * step.toNat : Nat) : Int) = (k : Int) * step := by
    push_cast
    rw [Int.toNat_of_nonneg hstep.le]
  unfold pyRangeLen
  by_cases h : start < stop
  · rw [if_pos h]
    have hst : 0 < step.toNat := by omega
    have hsplit : (stop - start).toNat + (step.toNat - 1)
        = ((stop - start).toNat - 1) + step.toNat := by omega
    rw [hsplit, Nat.add_div_right _ hst, Nat.lt_add_one_iff,
      Nat.le_div_iff_mul_le hst, ← hcast]
    generalize k * step.toNat = m
    omega
  · rw [if_neg h]
    simp only [Nat.not_lt_zero, false_iff, not_lt]
    have hk : (0 : Int) ≤ (k : Int) * step := mul_nonneg (by positivity) hstep.le
    linarith [not_lt.mp h]

lemma pyRange_length (start stop step : Int) :
    (pyRange start stop step).length = pyRangeLen start stop step := by
  simp [pyRange]

lemma pyRange_getD {start stop step : Int} {k : Nat}
    (hk : k < pyRangeLen start stop step) :
    (pyRange start stop step).getD k 0 = start + (k : Int) * step := by
  unfold pyRange
  rw [List.getD_eq_getElem _ _ (by simpa using hk)]
  simp

/-- The values Python's `range(start, stop, step)` runs over, for a
positive step, are exactly the `start + k * step` below `stop`. -/
lemma pyRange_mem {start stop step : Int} (hstep : 0 < step) (x : Int) :
    x ∈ pyRange start stop step ↔ ∃ k : Nat, x = start + (k : Int) * step ∧ x < stop := by
  unfold pyRange
  simp only [List.mem_map, List.mem_range]
  constructor
  · rintro ⟨k, hk, rfl⟩
    exact ⟨k, rfl, (pyRangeLen_lt_iff hstep k).1 hk⟩
  · rintro ⟨k, rfl, hx⟩
    exact ⟨k, (pyRangeLen_lt_iff hstep k).2 hx, rfl⟩

/-- Number of grid columns (x values) of the discretization. -/
def gridRows (inp : AnalysisInput) : Nat :=
  pyRangeLen inp.rootX (inp.rootX + inp.width) analysis_grid_spacing

/-- Number of entries of each `line` (y values) of the discretization. -/
def gridCols (inp : AnalysisInput) : Nat :=
  pyRangeLen inp.rootY (inp.rootY + inp.height) analysis_grid_spacing

lemma analysis_nodes_length (inp : AnalysisInput) :
    (analysis_nodes inp).length = gridRows inp := by
  simp [analysis_nodes, pyRange, gridRows]

lemma analysis_nodes_row_length (inp : AnalysisInput) (i : Nat)
    (hi : i < gridRows inp) :
    ((analysis_nodes inp).getD i []).length = gridCols inp := by
  unfold analysis_nodes
  rw [List.getD_eq_getElem _ _ (by simpa [pyRange, gridRows] using hi)]
  simp [pyRange, gridCols]

lemma analysis_nodes_getD (inp : AnalysisInput) (i : Nat) (hi : i < gridRows inp) :
    (analysis_nodes inp).getD i []
      = (pyRange inp.rootY (inp.rootY + inp.height) analysis_grid_spacing).enum.map
          (fun jy => nodeName inp.pads inp.tracks
            (inp.rootX + (i : Int) * analysis_grid_spacing) jy.2
            ("n" ++ toString i ++ "x" ++ toString jy.1)) := by
  unfold analysis_nodes
  rw [List.getD_eq_getElem _ _ (by simpa [pyRange, gridRows] using hi)]
  simp [pyRange]

lemma nodeAt_analysis_nodes (inp : AnalysisInput) (i j : Nat)
    (hi : i < gridRows inp) (hj : j < gridCols inp) :
    nodeAt (analysis_nodes inp) i j
      = nodeName inp.pads inp.tracks
          (inp.rootX + (i : Int) * analysis_grid_spacing)
          (inp.rootY + (j : Int) * analysis_grid_spacing)
          ("n" ++ toString i ++ "x" ++ toString j) := by
  unfold nodeAt
  rw [analysis_nodes_getD inp i hi,
    List.getD_eq_getElem _ _ (by simpa [pyRange, gridCols] using hj)]
  simp [pyRange]

lemma getD_set_self {α : Type} (l : List α) (k : Nat) (a d : α) (h : k < l.length) :
    (l.set k a).getD k d = a := by
  rw [List.getD_eq_getElem _ _ (by simpa using h)]
  simp

lemma getD_set_ne {α : Type} (l : List α) (k m : Nat) (a d : α) (h : m ≠ k) :
    (l.set k a).getD m d = l.getD m d := by
  by_cases hm : m < l.length
  · rw [List.getD_eq_getElem _ _ (by simpa using hm), List.getD_eq_getElem _ _ hm]
    simp [List.getElem_set, Ne.symm h]
  · rw [List.getD_eq_default _ _ (by simpa using not_lt.mp hm),
      List.getD_eq_default _ _ (not_lt.mp hm)]

/-- The running resistor counter numbers the emitted pairs consecutively
starting from its initial value. -/
lemma emitResistors_eq (ps : List (String × String)) (n : Nat) :
    emitResistors ps n
      = (List.enumFrom n ps).map (fun kp => mkRLine kp.1 kp.2.1 kp.2.2) := by
  induction ps generalizing n with
  | nil => rfl
  | cons p ps ih => simp [emitResistors, List.enumFrom_cons, ih]

/-- The current-source loop emits, in order, one card per
(index, row) with current draw ≠ "0". -/
lemma currentLines_eq (cfg : List PadRow) (i : Nat) :
    currentLines cfg i
      = ((List.enumFrom i cfg).filter (fun p => p.2.current ≠ "0")).map
          (fun p => mkILine p.1 p.2) := by
  induction cfg generalizing i with
  | nil => rfl
  | cons r rs ih =>
      by_cases h : r.current = "0" <;>
        simp [currentLines, List.enumFrom_cons, ih, h, List.filter_cons]

/-- The `OnSelectNet` pad loop returns the board pads on the chosen net
in board order, together with their display names and fresh config rows. -/
lemma selectPadsLoop_eq (netname : String) (ps : List BoardPad) :
    selectPadsLoop netname ps
      = (ps.filter (fun p => p.netName = netname),
         (ps.filter (fun p => p.netName = netname)).map mkPadName,
         (ps.filter (fun p => p.netName = netname)).map
           (fun p => ⟨mkPadName p, "0", false⟩)) := by
  induction ps with
  | nil => rfl
  | cons p ps ih =>
      by_cases h : p.netName = netname <;>
        simp [selectPadsLoop, List.filter_cons, h, ih]

/-- A (center, neighbor) pair is emitted exactly when the center has
interior indices in both dimensions, is on the net, and the neighbor is
one of its four orthogonal neighbors and on the net. -/
lemma collectPairs_mem (nodes : List (List String)) (a b : String) :
    (a, b) ∈ collectPairs nodes ↔
      ∃ i j : Nat, 1 ≤ i ∧ i + 1 < nodes.length ∧ 1 ≤ j ∧
        j + 1 < (nodes.headD []).length ∧
        nodeAt nodes i j = a ∧ a ≠ "" ∧
        ∃ q ∈ neighborIdx i j, nodeAt nodes q.1 q.2 = b ∧ b ≠ "" := by
  unfold collectPairs
  simp only [List.mem_flatMap, List.mem_range'_1]
  constructor
  · rintro ⟨i, ⟨hi1, hi2⟩, j, ⟨hj1, hj2⟩, hmem⟩
    by_cases hc : nodeAt nodes i j ≠ ""
    · rw [if_pos hc] at hmem
      simp only [List.mem_map, List.mem_filter, decide_eq_true_eq] at hmem
      obtain ⟨q, ⟨hq, hqne⟩, heq⟩ := hmem
      have ha : nodeAt nodes i j = a := (Prod.mk.injEq _ _ _ _ ▸ heq).1
      have hb : nodeAt nodes q.1 q.2 = b := (Prod.mk.injEq _ _ _ _ ▸ heq).2
      exact ⟨i, j, hi1, by omega, hj1, by omega, ha, ha ▸ hc, q, hq, hb, hb ▸ hqne⟩
    · rw [if_neg hc] at hmem
      simp at hmem
  · rintro ⟨i, j, hi1, hi2, hj1, hj2, ha, hane, q, hq, hb, hbne⟩
    refine ⟨i, ⟨hi1, by omega⟩, j, ⟨hj1, by omega⟩, ?_⟩
    rw [if_pos (ha ▸ hane)]
    simp only [List.mem_map, List.mem_filter, decide_eq_true_eq]
    exact ⟨q, ⟨hq, hb ▸ hbne⟩, by rw [ha, hb]⟩

lemma valueChangedStep_two_same (s : GuiState) (r : Nat) (v : String)
    (h : s.sourceRow = (r : Int)) :
    valueChangedStep s r 2 v
      = { s with
          padRows := s.padRows.set r
            (setSource (s.padRows.getD r default) (!(s.padRows.getD r default).source))
          sourceRow := -1
          startEnabled := false } := by
  simp [valueChangedStep, userEdit, onSelectSource, h]

lemma valueChangedStep_two_none (s : GuiState) (r : Nat) (v : String)
    (h2 : s.sourceRow = -1) :
    valueChangedStep s r 2 v
      = { s with
          padRows := s.padRows.set r
            (setSource (s.padRows.getD r default) (!(s.padRows.getD r default).source))
          sourceRow := (r : Int)
          startEnabled := true } := by
  simp [valueChangedStep, userEdit, onSelectSource, h2]

lemma valueChangedStep_two_new (s : GuiState) (r : Nat) (v : String)
    (h1 : s.sourceRow ≠ (r : Int)) (h2 : s.sourceRow ≠ -1) :
    valueChangedStep s r 2 v
      = { s with
          padRows :=
            (s.padRows.set r
              (setSource (s.padRows.getD r default) (!(s.padRows.getD r default).source))).set
              s.sourceRow.toNat
              (setSource
                ((s.padRows.set r
                  (setSource (s.padRows.getD r default)
                    (!(s.padRows.getD r default).source))).getD s.sourceRow.toNat default)
                false)
          sourceRow := (r : Int)
          startEnabled := true } := by
  simp [valueChangedStep, userEdit, onSelectSource, h1, h2]

lemma valueChangedStep_one (s : GuiState) (r : Nat) (v : String) :
    valueChangedStep s r 1 v
      = { s with padRows := s.padRows.set r { s.padRows.getD r default with current := v } } := by
  simp [valueChangedStep, userEdit, onSelectSource]

lemma valueChangedStep_other (s : GuiState) (r c : Nat) (v : String)
    (h1 : c ≠ 1) (h2 : c ≠ 2) :
    valueChangedStep s r c v = s := by
  simp [valueChangedStep, userEdit, onSelectSource, h1, h2]

lemma onSelectNet_eq_pos (s : GuiState) (b : Board) (sel : Nat)
    (h : 0 < b.pads.length) :
    onSelectNet s b sel = { s with
      analysisNetname := some (s.netnames.getD sel (""))
      analysisNet := some (s.nets.getD sel default)
      analysisPads := (selectPadsLoop (s.netnames.getD sel ("")) b.pads).1
      analysisPadnames := (selectPadsLoop (s.netnames.getD sel ("")) b.pads).2.1
      padRows := (selectPadsLoop (s.netnames.getD sel ("")) b.pads).2.2
      sourceRow := -1
      startEnabled := false } := by
  simp [onSelectNet, h]

lemma onSelectNet_eq_neg (s : GuiState) (b : Board) (sel : Nat)
    (h : ¬ 0 < b.pads.length) :
    onSelectNet s b sel = { s with
      analysisNetname := some (s.netnames.getD sel (""))
      analysisNet := some (s.nets.getD sel default)
      padRows := []
      sourceRow := -1
      startEnabled := false } := by
  simp [onSelectNet, h]

lemma setSource_source (row : PadRow) (b : Bool) : (setSource row b).source = b := rfl

lemma currentUpdate_source (row : PadRow) (v : String) :
    ({ row with current := v } : PadRow).source = row.source := rfl

lemma srcInv_initState (b : Board) : srcInv (initState b) := by
  constructor
  · simp [initState]
  · left
    refine ⟨rfl, fun m hm => ?_⟩
    simp [initState] at hm

lemma srcInv_onSelectNet (s : GuiState) (b : Board) (sel : Nat) :
    srcInv (onSelectNet s b sel) := by
  by_cases h : 0 < b.pads.length
  · rw [onSelectNet_eq_pos s b sel h]
    constructor
    · simp
    · left
      refine ⟨rfl, fun m hm => ?_⟩
      rw [selectPadsLoop_eq] at hm ⊢
      simp only [List.length_map] at hm
      rw [List.getD_eq_getElem _ _ (by simpa using hm)]
      simp
  · rw [onSelectNet_eq_neg s b sel h]
    constructor
    · simp
    · left
      refine ⟨rfl, fun m hm => ?_⟩
      simp at hm

lemma srcInv_valueChanged (s : GuiState) (r c : Nat) (v : String)
    (hr : r < s.padRows.length) (h : srcInv s) :
    srcInv (valueChangedStep s r c v) := by
  obtain ⟨hen, hbr⟩ := h
  by_cases hc2 : c = 2
  · subst hc2
    by_cases hsame : s.sourceRow = (r : Int)
    · rw [valueChangedStep_two_same s r v hsame]
      rcases hbr with ⟨hneg, _⟩ | ⟨k, hk, hklen, huniq⟩
      · rw [hneg] at hsame
        omega
      · have hkr : k = r := by
          rw [hk] at hsame
          exact_mod_cast hsame
        constructor
        · simp
        · left
          refine ⟨rfl, fun m hm => ?_⟩
          simp only [List.length_set] at hm
          by_cases hmr : m = r
          · subst hmr
            rw [getD_set_self _ _ _ _ hm]
            have hs : (s.padRows.getD m default).source = true :=
              (huniq m hm).mpr hkr.symm
            rw [setSource_source, hs]
            rfl
          · rw [getD_set_ne _ _ _ _ _ hmr]
            cases hb : (s.padRows.getD m default).source with
            | false => rfl
            | true => exact absurd ((huniq m hm).mp hb) (fun e => hmr (e.trans hkr))
    · by_cases hnone : s.sourceRow = -1
      · rw [valueChangedStep_two_none s r v hnone]
        rcases hbr with ⟨_, hall⟩ | ⟨k, hk, _, _⟩
        · constructor
          · exact iff_of_true rfl (by show (r : Int) ≠ -1; omega)
          · right
            refine ⟨r, rfl, by simpa using hr, fun m hm => ?_⟩
            simp only [List.length_set] at hm
            by_cases hmr : m = r
            · subst hmr
              rw [getD_set_self _ _ _ _ hm, setSource_source, hall m hm]
              simp
            · rw [getD_set_ne _ _ _ _ _ hmr, hall m hm]
              simp [hmr]
        · rw [hk] at hnone
          omega
      · rw [valueChangedStep_two_new s r v hsame hnone]
        rcases hbr with ⟨hneg, _⟩ | ⟨k, hk, hklen, huniq⟩
        · exact absurd hneg hnone
        have hkr : k ≠ r := fun e => hsame (by rw [hk, e])
        have htn : s.sourceRow.toNat = k := by
          rw [hk]
          simp
        constructor
        · exact iff_of_true rfl (by show (r : Int) ≠ -1; omega)
        · right
          refine ⟨r, rfl, by simpa using hr, fun m hm => ?_⟩
          simp only [List.length_set] at hm
          rw [htn]
          by_cases hmk : m = k
          · subst hmk
            rw [getD_set_self _ _ _ _ (by simpa using hklen), setSource_source]
            simp [fun e => hkr e]
          · rw [getD_set_ne _ _ _ _ _ hmk]
            by_cases hmr : m = r
            · subst hmr
              rw [getD_set_self _ _ _ _ hr, setSource_source]
              have hs : (s.padRows.getD m default).source = false := by
                cases hb : (s.padRows.getD m default).source with
                | false => rfl
                | true => exact absurd ((huniq m hr).mp hb) hmk
              rw [hs]
              simp
            · rw [getD_set_ne _ _ _ _ _ hmr]
              cases hb : (s.padRows.getD m default).source with
              | false => simp [hmr]
              | true => exact absurd ((huniq m hm).mp hb) hmk
  · by_cases hc1 : c = 1
    · subst hc1
      rw [valueChangedStep_one]
      refine ⟨hen, ?_⟩
      rcases hbr with ⟨hneg, hall⟩ | ⟨k, hk, hklen, huniq⟩
      · left
        refine ⟨hneg, fun m hm => ?_⟩
        simp only [List.length_set] at hm
        by_cases hmr : m = r
        · subst hmr
          rw [getD_set_self _ _ _ _ hm, currentUpdate_source]
          exact hall m hm
        · rw [getD_set_ne _ _ _ _ _ hmr]
          exact hall m hm
      · right
        refine ⟨k, hk, by simpa using hklen, fun m hm => ?_⟩
        simp only [List.length_set] at hm
        by_cases hmr : m = r
        · subst hmr
          rw [getD_set_self _ _ _ _ hm, currentUpdate_source]
          exact huniq m hm
        · rw [getD_set_ne _ _ _ _ _ hmr]
          exact huniq m hm
    · rw [valueChangedStep_other s r c v hc1 hc2]
      exact ⟨hen, hbr⟩

/-- The source-selection invariant holds in every reachable state. -/
lemma srcInv_reachable {b : Board} {s : GuiState} (h : Reachable b s) : srcInv s := by
  induction h with
  | init => exact srcInv_initState b
  | selectNet sel hre hsel => exact srcInv_onSelectNet _ b sel
  | valueChanged r c v hre hr ih => exact srcInv_valueChanged _ r c v hr ih

lemma headD_eq_getD_zero {α : Type} (l : List α) (d : α) : l.headD d = l.getD 0 d := by
  cases l <;> rfl

lemma analysis_nodes_headD_length (inp : AnalysisInput) (h : 0 < gridRows inp) :
    ((analysis_nodes inp).headD []).length = gridCols inp := by
  rw [headD_eq_getD_zero]
  exact analysis_nodes_row_length inp 0 h

/-- A classified name is nonempty exactly when some pad or some track
contains the point (given nonempty pad names and grid default). -/
lemma nodeName_ne_empty_iff (pads : List (BoardPad × PadRow)) (tracks : List Track)
    (x y : Int) (d : String) (hd : d ≠ "")
    (hnames : ∀ pr ∈ pads, pr.2.name ≠ "") :
    nodeName pads tracks x y d ≠ "" ↔
      (∃ pr ∈ pads, pr.1.hit x y = true) ∨ (∃ t ∈ tracks, t.hit x y = true) := by
  unfold nodeName
  cases hf : pads.find? (fun pr => pr.1.hit x y) with
  | some pr =>
      dsimp only
      have hmem := List.mem_of_find?_eq_some hf
      have hhit : pr.1.hit x y = true := by simpa using List.find?_some hf
      constructor
      · intro _
        exact Or.inl ⟨pr, hmem, hhit⟩
      · intro _
        by_cases hc : pr.2.current ≠ "0" || pr.2.source
        · rw [if_pos hc]
          exact hnames pr hmem
        · rw [if_neg hc]
          exact hd
  | none =>
      dsimp only
      have hnone : ∀ pr ∈ pads, ¬ pr.1.hit x y = true := by
        intro pr hpr
        simpa using List.find?_eq_none.mp hf pr hpr
      by_cases ht : tracks.any (fun t => t.hit x y)
      · rw [if_pos ht]
        refine iff_of_true hd (Or.inr ?_)
        simpa using ht
      · rw [if_neg ht]
        constructor
        · intro hfalse
          exact absurd rfl hfalse
        · rintro (⟨pr, hpr, hh⟩ | htr)
          · exact absurd hh (hnone pr hpr)
          · exact absurd (List.any_eq_true.mpr (by simpa using htr)) ht

/-- A point contained in neither a pad nor a track is recorded as the
empty node name. -/
lemma nodeName_eq_empty (pads : List (BoardPad × PadRow)) (tracks : List Track)
    (x y : Int) (d : String)
    (hp : ∀ pr ∈ pads, pr.1.hit x y = false)
    (ht : ∀ t ∈ tracks, t.hit x y = false) :
    nodeName pads tracks x y d = "" := by
  unfold nodeName
  have hf : pads.find? (fun pr => pr.1.hit x y) = none := by
    rw [List.find?_eq_none]
    intro pr hpr
    simp [hp pr hpr]
  rw [hf, if_neg]
  simp only [List.any_eq_true, not_exists]
  rintro t ⟨htt, hh⟩
  rw [ht t htt] at hh
  exact Bool.false_ne_true hh

/-- When some pad contains the point, the classification does not consult
the tracks: the result is the same for any track list. -/
lemma nodeName_tracks_irrelevant (pads : List (BoardPad × PadRow))
    (tracks tracks' : List Track) (x y : Int) (d : String)
    (hp : ∃ pr ∈ pads, pr.1.hit x y = true) :
    nodeName pads tracks x y d = nodeName pads tracks' x y d := by
  have hs : (pads.find? (fun pr => pr.1.hit x y)).isSome := by
    rw [List.find?_isSome]
    simpa using hp
  obtain ⟨pr, hf⟩ := Option.isSome_iff_exists.mp hs
  unfold nodeName
  rw [hf]

lemma nodeOnNet_iff (pads : List (BoardPad × PadRow)) (tracks : List Track)
    (x y : Int) :
    nodeOnNet pads tracks x y = true ↔
      (∃ pr ∈ pads, pr.1.hit x y = true) ∨ (∃ t ∈ tracks, t.hit x y = true) := by
  simp [nodeOnNet]

lemma node_voltages_length (op1 : String → ℚ) (nodes : List (List String)) :
    (node_voltages op1 nodes).length = nodes.length := by
  simp [node_voltages]

lemma node_voltages_getD (op1 : String → ℚ) (nodes : List (List String))
    (i : Nat) (hi : i < nodes.length) :
    (node_voltages op1 nodes).getD i []
      = (List.range (nodes.headD []).length).map
          (fun j => if nodeAt nodes i j ≠ "" then op1 (nodeAt nodes i j).toLower
            else analysis_source_voltage) := by
  unfold node_voltages
  rw [List.getD_eq_getElem _ _ (by simpa using hi)]
  simp

lemma node_voltages_entry (op1 : String → ℚ) (nodes : List (List String))
    (i j : Nat) (hi : i < nodes.length) (hj : j < (nodes.headD []).length) :
    ((node_voltages op1 nodes).getD i []).getD j 0
      = if nodeAt nodes i j ≠ "" then op1 (nodeAt nodes i j).toLower
        else analysis_source_voltage := by
  rw [node_voltages_getD op1 nodes i hi,
    List.getD_eq_getElem _ _ (by simpa using hj)]
  simp

/-- A grid point name "n{i}x{j}" is never the empty string. -/
lemma gridName_ne_empty (i j : Nat) : ("n" ++ toString i ++ "x" ++ toString j) ≠ "" := by
  intro h
  have h2 : ("n" ++ toString i ++ "x" ++ toString j).length = 0 := by
    rw [h]
    rfl
  rw [String.length_append, String.length_append, String.length_append] at h2
  have hn : ("n" : String).length = 1 := rfl
  omega

/-- Example track that contains every point. -/
def fullTrack : Track := ⟨fun _ _ => true⟩

/-- Example analysis input: a 2 x 2 grid fully covered by one track of the
net, with no pads. -/
def exGrid2 : AnalysisInput :=
  ⟨0, 0, 200000, 200000, [], [fullTrack]⟩

/-- Example analysis input: a single grid point covered by two overlapping
pads; the first draws no current, the second draws 5. -/
def exOverlap : AnalysisInput :=
  ⟨0, 0, 100000, 100000,
    [(⟨"VCC", "U1", "1", fun _ _ => true⟩, ⟨"A", "0", false⟩),
     (⟨"VCC", "U2", "1", fun _ _ => true⟩, ⟨"B", "5", false⟩)], []⟩

/-- Example analysis input: a single grid point on no pad and no track. -/
def exEmpty : AnalysisInput :=
  ⟨0, 0, 100000, 100000, [], []⟩

/-- Example board: an unnamed net, a net "VCC", and one pad on "VCC". -/
def exBoard : Board :=
  ⟨[("", ⟨0⟩), ("VCC", ⟨1⟩)], [⟨"VCC", "U1", "1", fun _ _ => true⟩]⟩

/-- Example GUI state: two configured pads, row 0 selected as source. -/
def exState : GuiState :=
  ⟨["VCC"], [⟨1⟩], [⟨"A", "0", true⟩, ⟨"B", "0", false⟩], [], [], none, none, 0, true⟩

/-- C1 (amended): the resistor lines of the synthesized netlist are
exactly the consecutively numbered cards over the (center, neighbor)
pairs whose center lies at interior grid indices (1 ≤ i ≤ rows-2,
1 ≤ j ≤ cols-2) and is on-net, one card per on-net orthogonal neighbor
(right, bottom, left, top, in that order); on-net nodes on the first or
last grid row or column emit no cards as centers. -/
theorem C1_resistor_stencil (nodes : List (List String)) (a b : String) :
    resistorLines nodes
      = (List.enumFrom 1 (collectPairs nodes)).map (fun kp => mkRLine kp.1 kp.2.1 kp.2.2)
    ∧ ((a, b) ∈ collectPairs nodes ↔
        ∃ i j : Nat, 1 ≤ i ∧ i + 1 < nodes.length ∧ 1 ≤ j ∧
          j + 1 < (nodes.headD []).length ∧
          nodeAt nodes i j = a ∧ a ≠ "" ∧
          ∃ q ∈ neighborIdx i j, nodeAt nodes q.1 q.2 = b ∧ b ≠ "") :=
  ⟨emitResistors_eq (collectPairs nodes) 1, collectPairs_mem nodes a b⟩

/-- C1 counterexample: on a fully on-net 2 x 2 grid every node lies on the
first or last grid row and column; (0,0) and (1,0) are on-net orthogonal
neighbors, yet the loops over `range(1, len-1)` emit no resistor line at
all, so the claimed resistor between them does not exist. -/
theorem C1_counterexample :
    nodeAt (analysis_nodes exGrid2) 0 0 = "n0x0"
    ∧ nodeAt (analysis_nodes exGrid2) 1 0 = "n1x0"
    ∧ (analysis_nodes exGrid2).length = 2
    ∧ ((analysis_nodes exGrid2).getD 0 []).length = 2
    ∧ resistorLines (analysis_nodes exGrid2) = [] := by
  decide

/-- C2: a grid point is classified on-net (recorded with a nonempty
name) iff it hit-tests positively against at least one pad or at least
one track; a point matching neither is recorded as the empty name; and
when some pad matches, the classification is independent of the track
list (tracks are only consulted when no pad matched). -/
theorem C2_classification (inp : AnalysisInput) (i j : Nat)
    (hi : i < gridRows inp) (hj : j < gridCols inp)
    (hnames : ∀ pr ∈ inp.pads, pr.2.name ≠ "") :
    (nodeAt (analysis_nodes inp) i j ≠ "" ↔
      (∃ pr ∈ inp.pads, pr.1.hit (inp.rootX + (i : Int) * analysis_grid_spacing)
          (inp.rootY + (j : Int) * analysis_grid_spacing) = true)
      ∨ (∃ t ∈ inp.tracks, t.hit (inp.rootX + (i : Int) * analysis_grid_spacing)
          (inp.rootY + (j : Int) * analysis_grid_spacing) = true))
    ∧ ((∀ pr ∈ inp.pads, pr.1.hit (inp.rootX + (i : Int) * analysis_grid_spacing)
          (inp.rootY + (j : Int) * analysis_grid_spacing) = false) →
        (∀ t ∈ inp.tracks, t.hit (inp.rootX + (i : Int) * analysis_grid_spacing)
          (inp.rootY + (j : Int) * analysis_grid_spacing) = false) →
        nodeAt (analysis_nodes inp) i j = "")
    ∧ ((∃ pr ∈ inp.pads, pr.1.hit (inp.rootX + (i : Int) * analysis_grid_spacing)
          (inp.rootY + (j : Int) * analysis_grid_spacing) = true) →
        ∀ ts : List Track,
          nodeName inp.pads ts (inp.rootX + (i : Int) * analysis_grid_spacing)
            (inp.rootY + (j : Int) * analysis_grid_spacing)
            ("n" ++ toString i ++ "x" ++ toString j)
            = nodeAt (analysis_nodes inp) i j) := by
  rw [nodeAt_analysis_nodes inp i j hi hj]
  refine ⟨?_, ?_, ?_⟩
  · exact nodeName_ne_empty_iff inp.pads inp.tracks _ _ _ (gridName_ne_empty i j) hnames
  · intro hp ht
    exact nodeName_eq_empty inp.pads inp.tracks _ _ _ hp ht
  · intro hp ts
    exact nodeName_tracks_irrelevant inp.pads ts inp.tracks _ _ _ hp

/-- C2 witness: on the fully tracked 2 x 2 grid the point (0,0) is
classified on-net because a track contains it. -/
theorem C2_classification_witness :
    nodeAt (analysis_nodes exGrid2) 0 0 ≠ "" :=
  (C2_classification exGrid2 0 0 (by decide) (by decide) (by decide)).1.mpr
    (Or.inr ⟨fullTrack, List.Mem.head _, rfl⟩)

/-- C3: the emitted netlist has the fixed structure: title "analysis";
the resistor cards numbered R1, R2, ... consecutively from 1; exactly
one voltage-source card `V1 <source-pad-name> 0 3.3`; one current-source
card `I<i> <pad-name> 0 <current>` per pad row whose current-draw cell
differs from "0"; then ".op" and ".end". -/
theorem C3_netlist_structure (nodes : List (List String)) (cfg : List PadRow)
    (src : Nat) (hsrc : src < cfg.length) :
    analysis_netlist nodes cfg src
      = ["analysis"]
        ++ (List.enumFrom 1 (collectPairs nodes)).map
            (fun kp => mkRLine kp.1 kp.2.1 kp.2.2)
        ++ ["V1 " ++ (cfg.get ⟨src, hsrc⟩).name ++ " 0 3.3"]
        ++ ((List.enumFrom 0 cfg).filter (fun p => p.2.current ≠ "0")).map
            (fun p => mkILine p.1 p.2)
        ++ [".op", ".end"] := by
  unfold analysis_netlist resistorLines mkVLine
  rw [emitResistors_eq, currentLines_eq, List.getD_eq_get _ _ hsrc]
  have h33 : " 0 " ++ analysis_source_voltage_str = " 0 3.3" := by decide
  rw [String.append_assoc ("V1 " ++ (cfg.get ⟨src, hsrc⟩).name), h33]
  simp

/-- C3 witness: a resistor-free grid with a source row and one drawing
row yields exactly the expected five-line netlist. -/
theorem C3_netlist_structure_witness :
    analysis_netlist (analysis_nodes exGrid2)
        [⟨"A", "0", true⟩, ⟨"B", "2", false⟩] 0
      = ["analysis", "V1 A 0 3.3", "I1 B 0 2", ".op", ".end"] :=
  (C3_netlist_structure (analysis_nodes exGrid2)
    [⟨"A", "0", true⟩, ⟨"B", "2", false⟩] 0 (by decide)).trans (by decide)

/-- C4 counterexample: the single grid point (0,0) lies on the second
pad, which has nonzero current draw "5" and row name "B", yet the node
is named "n0x0" because the pad loop breaks at the first hitting pad,
whose current draw is "0" and which is not the source. -/
theorem C4_counterexample :
    nodeAt (analysis_nodes exOverlap) 0 0 = "n0x0"
    ∧ (exOverlap.pads.getD 1 default).1.hit
        (exOverlap.rootX + (0 : Int) * analysis_grid_spacing)
        (exOverlap.rootY + (0 : Int) * analysis_grid_spacing) = true
    ∧ (exOverlap.pads.getD 1 default).2.current = "5"
    ∧ (exOverlap.pads.getD 1 default).2.name = "B"
    ∧ "n0x0" ≠ "B" := by
  decide

/-- C4 (amended): the tested x (resp. y) values are exactly the points
root + k * 100000 inside the half-open bounding interval; every grid row
has the same length; and the node at (i, j) is named after the FIRST pad
in configuration order that hit-tests it when that pad has nonzero
current draw or is the source, and "n{i}x{j}" otherwise — even if a
later pad with nonzero current also contains the point. -/
theorem C4_discretization (inp : AnalysisInput) (i j : Nat)
    (hi : i < gridRows inp) (hj : j < gridCols inp) :
    (∀ p : Int, p ∈ pyRange inp.rootX (inp.rootX + inp.width) analysis_grid_spacing ↔
        ∃ k : Nat, p = inp.rootX + (k : Int) * 100000 ∧ inp.rootX ≤ p
          ∧ p < inp.rootX + inp.width)
    ∧ (∀ p : Int, p ∈ pyRange inp.rootY (inp.rootY + inp.height) analysis_grid_spacing ↔
        ∃ k : Nat, p = inp.rootY + (k : Int) * 100000 ∧ inp.rootY ≤ p
          ∧ p < inp.rootY + inp.height)
    ∧ ((analysis_nodes inp).getD i []).length = gridCols inp
    ∧ (∀ pr, inp.pads.find? (fun e => e.1.hit
          (inp.rootX + (i : Int) * analysis_grid_spacing)
          (inp.rootY + (j : Int) * analysis_grid_spacing)) = some pr →
        ((pr.2.current ≠ "0" ∨ pr.2.source = true) →
          nodeAt (analysis_nodes inp) i j = pr.2.name)
        ∧ (pr.2.current = "0" → pr.2.source = false →
          nodeAt (analysis_nodes inp) i j = "n" ++ toString i ++ "x" ++ toString j)) := by
  have hstep : (0 : Int) < analysis_grid_spacing := by norm_num [analysis_grid_spacing]
  refine ⟨?_, ?_, analysis_nodes_row_length inp i hi, ?_⟩
  · intro p
    rw [pyRange_mem hstep]
    constructor
    · rintro ⟨k, rfl, hlt⟩
      exact ⟨k, by norm_num [analysis_grid_spacing],
        le_add_of_nonneg_right (mul_nonneg (Int.natCast_nonneg k) hstep.le), hlt⟩
    · rintro ⟨k, rfl, _, hlt⟩
      exact ⟨k, by norm_num [analysis_grid_spacing], hlt⟩
  · intro p
    rw [pyRange_mem hstep]
    constructor
    · rintro ⟨k, rfl, hlt⟩
      exact ⟨k, by norm_num [analysis_grid_spacing],
        le_add_of_nonneg_right (mul_nonneg (Int.natCast_nonneg k) hstep.le), hlt⟩
    · rintro ⟨k, rfl, _, hlt⟩
      exact ⟨k, by norm_num [analysis_grid_spacing], hlt⟩
  · intro pr hfind
    rw [nodeAt_analysis_nodes inp i j hi hj]
    unfold nodeName
    rw [hfind]
    dsimp only
    constructor
    · intro hcond
      rw [if_pos]
      rcases hcond with hc | hs
      · simp [hc]
      · simp [hs]
    · intro hcur hsrc
      rw [if_neg]
      simp [hcur, hsrc]

/-- C4 witness: on the overlapping-pads input the first hitting pad has
current "0" and is not the source, so the point keeps its grid name;
and 0 is a tested x value. -/
theorem C4_discretization_witness :
    (0 : Int) ∈ pyRange exOverlap.rootX (exOverlap.rootX + exOverlap.width)
        analysis_grid_spacing
    ∧ nodeAt (analysis_nodes exOverlap) 0 0 = "n" ++ toString 0 ++ "x" ++ toString 0 :=
  ⟨((C4_discretization exOverlap 0 0 (by decide) (by decide)).1 0).mpr
      ⟨0, by decide, by decide, by decide⟩,
    ((C4_discretization exOverlap 0 0 (by decide) (by decide)).2.2.2
      (⟨"VCC", "U1", "1", fun _ _ => true⟩, ⟨"A", "0", false⟩) rfl).2 rfl rfl⟩

/-- C5: the voltage grid has the same dimensions as the node grid, and
every on-net node carries the solver's operating-point value looked up
under the node's name lowercased. -/
theorem C5_postprocessing (inp : AnalysisInput) (op1 : String → ℚ) (i j : Nat)
    (hi : i < gridRows inp) (hj : j < gridCols inp) :
    (node_voltages op1 (analysis_nodes inp)).length = (analysis_nodes inp).length
    ∧ ((node_voltages op1 (analysis_nodes inp)).getD i []).length
        = ((analysis_nodes inp).getD i []).length
    ∧ (nodeAt (analysis_nodes inp) i j ≠ "" →
        ((node_voltages op1 (analysis_nodes inp)).getD i []).getD j 0
          = op1 (nodeAt (analysis_nodes inp) i j).toLower) := by
  have hrows : 0 < gridRows inp := lt_of_le_of_lt (Nat.zero_le i) hi
  have hlen := analysis_nodes_length inp
  have hhead := analysis_nodes_headD_length inp hrows
  refine ⟨node_voltages_length _ _, ?_, ?_⟩
  · rw [node_voltages_getD _ _ i (by rw [hlen]; exact hi)]
    rw [List.length_map, List.length_range, hhead,
      analysis_nodes_row_length inp i hi]
  · intro hne
    rw [node_voltages_entry _ _ i j (by rw [hlen]; exact hi)
      (by rw [hhead]; exact hj), if_pos hne]

/-- C5 witness: on the fully tracked grid the on-net node (0,0) receives
the solver value for "n0x0". -/
theorem C5_postprocessing_witness :
    ((node_voltages (fun _ => (1 : ℚ) / 2) (analysis_nodes exGrid2)).getD 0 []).getD 0 0
      = (fun _ => (1 : ℚ) / 2) (nodeAt (analysis_nodes exGrid2) 0 0).toLower :=
  (C5_postprocessing exGrid2 (fun _ => (1 : ℚ) / 2) 0 0 (by decide) (by decide)).2.2
    (by decide)

/-- C6: selecting a net rebuilds the pad configuration as exactly the
board pads (in board order) whose net name equals the selected net's
name, each row initialized to [name "{ref}-Pad{num}", current "0",
source off], with the source selection and start-button enablement
cleared. -/
theorem C6_select_net (s : GuiState) (b : Board) (sel : Nat)
    (hsel : sel < s.netnames.length) :
    (onSelectNet s b sel).padRows
      = (b.pads.filter (fun p => p.netName = s.netnames.get ⟨sel, hsel⟩)).map
          (fun p => ⟨mkPadName p, "0", false⟩)
    ∧ (onSelectNet s b sel).sourceRow = -1
    ∧ (onSelectNet s b sel).startEnabled = false := by
  have hname : s.netnames.getD sel ("") = s.netnames.get ⟨sel, hsel⟩ :=
    List.getD_eq_get _ _ hsel
  by_cases h : 0 < b.pads.length
  · rw [onSelectNet_eq_pos s b sel h]
    refine ⟨?_, rfl, rfl⟩
    show (selectPadsLoop (s.netnames.getD sel ("")) b.pads).2.2 = _
    rw [selectPadsLoop_eq, hname]
  · rw [onSelectNet_eq_neg s b sel h]
    have hb : b.pads = [] := List.length_eq_zero.mp (by omega)
    refine ⟨?_, rfl, rfl⟩
    rw [hb]
    rfl

/-- C6 witness: selecting "VCC" on the example board yields exactly its
one pad row with current "0" and no source. -/
theorem C6_select_net_witness :
    (onSelectNet (initState exBoard) exBoard 0).padRows = [⟨"U1-Pad1", "0", false⟩]
    ∧ (onSelectNet (initState exBoard) exBoard 0).sourceRow = -1 := by
  have h := C6_select_net (initState exBoard) exBoard 0 (by decide)
  exact ⟨h.1.trans (by decide), h.2.1⟩

/-- C7: in every state reachable through the event handlers, the button
press invokes run_analysis exactly when source_row is not -1, and then
source_row is a valid row index whose row is the toggled source. -/
theorem C7_start_guard {b : Board} {s : GuiState} (h : Reachable b s) :
    (onStartAnalysisRuns s = true ↔ s.sourceRow ≠ -1)
    ∧ (onStartAnalysisRuns s = true →
        ∃ k : Nat, s.sourceRow = (k : Int) ∧ k < s.padRows.length ∧
          (s.padRows.getD k default).source = true) := by
  have hinv := srcInv_reachable h
  constructor
  · simp [onStartAnalysisRuns]
  · intro hrun
    have hne : s.sourceRow ≠ -1 := by simpa [onStartAnalysisRuns] using hrun
    rcases hinv.2 with ⟨hneg, _⟩ | ⟨k, hk, hklen, huniq⟩
    · exact absurd hneg hne
    · exact ⟨k, hk, hklen, (huniq k hklen).mpr rfl⟩

/-- C7 witness: init, select the net, toggle the pad's source, press
start — the analysis runs and the source row is row 0. -/
theorem C7_start_guard_witness :
    onStartAnalysisRuns (valueChangedStep (onSelectNet (initState exBoard) exBoard 0) 0 2 ("")) = true
    ∧ ∃ k : Nat,
        (valueChangedStep (onSelectNet (initState exBoard) exBoard 0) 0 2 ("")).sourceRow = (k : Int)
        ∧ k < (valueChangedStep (onSelectNet (initState exBoard) exBoard 0) 0 2 ("")).padRows.length
        ∧ ((valueChangedStep (onSelectNet (initState exBoard) exBoard 0) 0 2 ("")).padRows.getD
            k default).source = true := by
  have hre : Reachable exBoard
      (valueChangedStep (onSelectNet (initState exBoard) exBoard 0) 0 2 ("")) :=
    Reachable.valueChanged 0 2 ("")
      (Reachable.selectNet 0 Reachable.init (by decide)) (by decide)
  exact ⟨by decide, (C7_start_guard hre).2 (by decide)⟩

/-- C8: a value-changed event on a valid row preserves the
source-selection invariant (at most one toggled row, tracked by
source_row, button enabled iff a source is selected); toggling the
selected row clears the selection and disables the button; toggling
another row while one is selected adopts the new row and untoggles the
old one. -/
theorem C8_toggle_invariant (s : GuiState) (r c : Nat) (v : String)
    (hr : r < s.padRows.length) (hinv : srcInv s) :
    srcInv (valueChangedStep s r c v)
    ∧ (c = 2 → s.sourceRow = (r : Int) →
        (valueChangedStep s r c v).sourceRow = -1
        ∧ (valueChangedStep s r c v).startEnabled = false)
    ∧ (c = 2 → s.sourceRow ≠ (r : Int) → s.sourceRow ≠ -1 →
        (valueChangedStep s r c v).sourceRow = (r : Int)
        ∧ (valueChangedStep s r c v).startEnabled = true
        ∧ ((valueChangedStep s r c v).padRows.getD s.sourceRow.toNat default).source
            = false) := by
  refine ⟨srcInv_valueChanged s r c v hr hinv, ?_, ?_⟩
  · rintro rfl hsame
    rw [valueChangedStep_two_same s r v hsame]
    exact ⟨rfl, rfl⟩
  · rintro rfl hsame hnone
    rw [valueChangedStep_two_new s r v hsame hnone]
    refine ⟨rfl, rfl, ?_⟩
    obtain ⟨_, hbr⟩ := hinv
    rcases hbr with ⟨hneg, _⟩ | ⟨k, hk, hklen, _⟩
    · exact absurd hneg hnone
    · have htn : s.sourceRow.toNat = k := by
        rw [hk]
        simp
      rw [htn, getD_set_self _ _ _ _ (by simpa using hklen), setSource_source]

/-- C8 witness: with row 0 selected as source, toggling row 1 keeps the
invariant, moves the selection to row 1, and untoggles row 0. -/
theorem C8_toggle_invariant_witness :
    srcInv (valueChangedStep exState 1 2 (""))
    ∧ (valueChangedStep exState 1 2 ("")).sourceRow = ((1 : Nat) : Int)
    ∧ ((valueChangedStep exState 1 2 ("")).padRows.getD 0 default).source = false := by
  have h := C8_toggle_invariant exState 1 2 ("") (by decide)
    ⟨by decide, Or.inr ⟨0, by decide, by decide, by decide⟩⟩
  refine ⟨h.1, (h.2.2 rfl (by decide) (by decide)).1, ?_⟩
  exact (h.2.2 rfl (by decide) (by decide)).2.2

/-- The net-list construction loop keeps both lists aligned: equal
lengths, pairwise zip equal to the filter of nonempty names, and only
nonempty names kept. -/
lemma buildNetLists_cons_empty (p : String × BNet) (rest : List (String × BNet))
    (h : p.1 = "") : buildNetLists (p :: rest) = buildNetLists rest := by
  simp [buildNetLists, h]

lemma buildNetLists_cons_kept (p : String × BNet) (rest : List (String × BNet))
    (h : p.1 ≠ "") :
    buildNetLists (p :: rest)
      = (p.1 :: (buildNetLists rest).1, p.2 :: (buildNetLists rest).2) := by
  simp [buildNetLists, h]

lemma buildNetLists_spec (l : List (String × BNet)) :
    (buildNetLists l).1.length = (buildNetLists l).2.length
    ∧ (buildNetLists l).1.zip (buildNetLists l).2 = l.filter (fun p => p.1 ≠ "")
    ∧ ∀ nm ∈ (buildNetLists l).1, nm ≠ "" := by
  induction l with
  | nil => exact ⟨rfl, rfl, by simp [buildNetLists]⟩
  | cons p rest ih =>
      by_cases h : p.1 = ""
      · rw [buildNetLists_cons_empty p rest h, List.filter_cons, if_neg (by simp [h])]
        exact ih
      · rw [buildNetLists_cons_kept p rest h, List.filter_cons, if_pos (by simp [h])]
        refine ⟨?_, ?_, ?_⟩
        · dsimp only
          rw [List.length_cons, List.length_cons, ih.1]
        · dsimp only
          rw [List.zip_cons_cons, ih.2.1, Prod.mk.eta]
        · dsimp only
          intro nm hm
          rcases List.mem_cons.mp hm with rfl | hm2
          · exact h
          · exact ih.2.2 nm hm2

/-- C9: at construction time nets with empty names are excluded; the
netnames and nets lists have equal length and are pairwise aligned with
the filtered board nets, so the (name, net) pair read at any selection
index is a real board pair with a nonempty name. -/
theorem C9_net_list_consistency (b : Board) :
    (initState b).netnames.length = (initState b).nets.length
    ∧ (initState b).netnames.zip (initState b).nets
        = b.netsByName.filter (fun p => p.1 ≠ "")
    ∧ (∀ nm ∈ (initState b).netnames, nm ≠ "")
    ∧ (∀ sel : Nat, sel < (initState b).netnames.length →
        ((initState b).netnames.getD sel (""), (initState b).nets.getD sel default)
          ∈ b.netsByName.filter (fun p => p.1 ≠ "")) := by
  obtain ⟨hlen, hzip, hnames⟩ := buildNetLists_spec b.netsByName
  simp only [initState]
  refine ⟨hlen, hzip, hnames, ?_⟩
  intro sel hsel
  have hsel2 : sel < (buildNetLists b.netsByName).2.length := by omega
  have hzlen : sel <
      ((buildNetLists b.netsByName).1.zip (buildNetLists b.netsByName).2).length := by
    rw [List.length_zip]
    omega
  have hpair : ((buildNetLists b.netsByName).1.zip
        (buildNetLists b.netsByName).2).getD sel ("", default)
      = ((buildNetLists b.netsByName).1.getD sel (""),
          (buildNetLists b.netsByName).2.getD sel default) := by
    rw [List.getD_eq_getElem _ _ hzlen, List.getElem_zip,
      List.getD_eq_getElem _ _ hsel, List.getD_eq_getElem _ _ hsel2]
  rw [← hpair, ← hzip]
  rw [List.getD_eq_getElem _ _ hzlen]
  exact List.getElem_mem hzlen

/-- C9 witness: on the example board the unnamed net is dropped and the
selection pair at index 0 is ("VCC", net 1). -/
theorem C9_net_list_consistency_witness :
    (initState exBoard).netnames.zip (initState exBoard).nets
        = exBoard.netsByName.filter (fun p => p.1 ≠ "")
    ∧ ((initState exBoard).netnames.getD 0 (""), (initState exBoard).nets.getD 0 default)
        ∈ exBoard.netsByName.filter (fun p => p.1 ≠ "") :=
  ⟨(C9_net_list_consistency exBoard).2.1,
    (C9_net_list_consistency exBoard).2.2.2 0 (by decide)⟩

/-- C10: every grid point that is not on the analyzed net is assigned
the constant source voltage 3.3 (not zero, not missing) in the output
voltage grid. -/
theorem C10_offnet_voltage (inp : AnalysisInput) (op1 : String → ℚ) (i j : Nat)
    (hi : i < gridRows inp) (hj : j < gridCols inp)
    (hoff : nodeAt (analysis_nodes inp) i j = "") :
    ((node_voltages op1 (analysis_nodes inp)).getD i []).getD j 0
        = analysis_source_voltage
    ∧ analysis_source_voltage = 33 / 10
    ∧ analysis_source_voltage ≠ 0 := by
  have hrows : 0 < gridRows inp := lt_of_le_of_lt (Nat.zero_le i) hi
  refine ⟨?_, rfl, by norm_num [analysis_source_voltage]⟩
  rw [node_voltages_entry _ _ i j (by rw [analysis_nodes_length]; exact hi)
    (by rw [analysis_nodes_headD_length inp hrows]; exact hj)]
  rw [if_neg (by simp [hoff])]

/-- C10 witness: the empty single-point board is off-net at (0,0) and its
voltage cell is 3.3. -/
theorem C10_offnet_voltage_witness :
    ((node_voltages (fun _ => (0 : ℚ)) (analysis_nodes exEmpty)).getD 0 []).getD 0 0
      = analysis_source_voltage :=
  (C10_offnet_voltage exEmpty (fun _ => (0 : ℚ)) 0 0 (by decide) (by decide)
    (by decide)).1

end PowerNetAnalyzer
